import Mathlib

/-!
Shallow embedding of the connection-binding layer of the conduit proxy
(src/proxy/src/bind.rs): the Host/Protocol request key and its equality,
request classification, the Bind factory with its shared handles, the
protocol-scoped binder, the bind-service assembly pipeline, and the
BufferSpawnError type.

External collaborators (the http crate's uri::Authority parser and header
values, tokio's reactor Handle, the telemetry sensors, the transport and
transparency clients, the reconnect wrapper) are modelled at their
interface boundary: handles are reference values, constructors of external
wrappers are recorded symbolically as structures holding their arguments,
and shared Arc cells are indices into an explicit store.
-/

namespace Conduit

/-- A parsed uri::Authority from the http crate (external): the parsed
host:port string. -/
structure Authority where
  value : String
deriving DecidableEq

/-- The host part of the key for an HTTP/1.x request (enum Host,
bind.rs lines 54-58). -/
inductive Host where
  | authority : Authority → Host
  | noAuthority : Host
deriving DecidableEq

/-- The overridden PartialEq for Host (bind.rs lines 252-261): the
NoAuthority case is never equal, even to other NoAuthority values. -/
def Host.eq : Host → Host → Bool
  | Host.authority a, Host.authority b => a == b
  | _, _ => false

/-- Protocol portion of the Recognize key for a request (enum Protocol,
bind.rs lines 48-52). -/
inductive Protocol where
  | http1 : Host → Protocol
  | http2 : Protocol
deriving DecidableEq

/-- The derived PartialEq for Protocol: same variant, with the Http1
payloads compared by the overridden Host equality. -/
def Protocol.eq : Protocol → Protocol → Bool
  | Protocol.http1 a, Protocol.http1 b => Host.eq a b
  | Protocol.http2, Protocol.http2 => true
  | _, _ => false

/-- Hash data of an Authority as fed to a hasher by the http crate. -/
def Authority.hashFeed (a : Authority) : List Nat :=
  a.value.toList.map Char.toNat

/-- Hash data fed to a hasher by the derived Hash for Host: the variant
discriminant, then the fields of the variant. -/
def Host.hashFeed : Host → List Nat
  | Host.authority a => 0 :: Authority.hashFeed a
  | Host.noAuthority => [1]

/-- Hash data fed to a hasher by the derived Hash for Protocol. -/
def Protocol.hashFeed : Protocol → List Nat
  | Protocol.http1 h => 0 :: Host.hashFeed h
  | Protocol.http2 => [1]

/-- A hash-table bucket scan keyed by Protocol: the first entry whose key
passes the PartialEq test, as a hash map compares candidate keys within a
bucket. -/
def findEntry {V : Type} : List (Protocol × V) → Protocol → Option V
  | [], _ => none
  | p :: rest, key =>
      if Protocol.eq p.1 key then some p.2 else findEntry rest key

/-- http::Version of a request (external http crate). -/
inductive Version where
  | http09
  | http10
  | http11
  | http2
deriving DecidableEq

/-- A raw header value from the http crate: opaque bytes; whether it
converts to a string is decided by the crate's to_str. -/
structure HeaderValue where
  bytes : List Nat
deriving DecidableEq

/-- An inbound http::Request, restricted to the parts classification
reads: wire version, the authority component of its URI, and its
headers. The body is carried opaquely. -/
structure Request (B : Type) where
  version : Version
  uriAuthority : Option Authority
  headers : List (String × HeaderValue)
  body : B

/-- The http crate's HOST header name. -/
def hostHeaderName : String := "host"

/-- HeaderMap::get — the first value stored under the given name. -/
def headersGet (headers : List (String × HeaderValue)) (name : String) :
    Option HeaderValue :=
  (headers.find? (fun p => p.1 == name)).map (fun p => p.2)

/-- The or_else closure of the classifier (bind.rs lines 232-242): the
Host header value, if one is present, convertible to a string, and
parseable as an Authority. The http crate's to_str and Authority parser
are external and passed in. -/
def hostHeaderAuthority {B : Type} (toStr : HeaderValue → Option String)
    (parseAuthority : String → Option Authority) (req : Request B) :
    Option Authority :=
  (headersGet req.headers hostHeaderName).bind fun h =>
    (toStr h).bind fun s => parseAuthority s

/-- Protocol classification, From<&http::Request<B>> for Protocol
(bind.rs lines 222-248): HTTP/2 requests key as Http2; otherwise prefer
the URI's authority component, else the parsed Host header, else
NoAuthority. -/
def protocolFrom {B : Type} (toStr : HeaderValue → Option String)
    (parseAuthority : String → Option Authority) (req : Request B) : Protocol :=
  if req.version = Version.http2 then
    Protocol.http2
  else
    let host :=
      (((req.uriAuthority).orElse (fun _ =>
          hostHeaderAuthority toStr parseAuthority req)).map
        Host.authority).getD Host.noAuthority
    Protocol.http1 host

/-- A tokio reactor Handle (external): a shared handle to the event loop;
cloning yields a handle to the same reactor. -/
structure Handle where
  id : Nat
deriving DecidableEq

/-- Handle::clone — another handle to the same reactor. -/
def Handle.clone (h : Handle) : Handle := h

/-- Modelled from the spec: telemetry::Sensors (code outside this module)
is a shared handle to the telemetry subsystem; the null variant is the
no-op sensor implementation used before full proxy context is available. -/
inductive Sensors where
  | null
  | live (id : Nat)
deriving DecidableEq

/-- Sensors::clone — the same shared telemetry handle. -/
def Sensors.clone (s : Sensors) : Sensors := s

/-- An Arc<AtomicUsize> handle: a reference (index) into the process-wide
store of shared counter cells. -/
abbrev CounterRef := Nat

/-- Arc::clone — a handle to the very same cell. -/
def Arc.clone (r : CounterRef) : CounterRef := r

/-- The process-wide store of Arc<AtomicUsize> cells. -/
structure Store where
  cells : List Nat
deriving DecidableEq

/-- AtomicUsize::load on the cell a reference designates. -/
def Store.get (st : Store) (r : CounterRef) : Nat :=
  st.cells.getD r 0

/-- AtomicUsize::store on the cell a reference designates. -/
def Store.set (st : Store) (r : CounterRef) (v : Nat) : Store :=
  ⟨st.cells.set r v⟩

/-- A shared handle to the proxy-wide context, Arc<ctx::Proxy>
(the context object itself is external). -/
structure ArcProxy where
  ref : Nat
deriving DecidableEq

/-- Binds a Service from a SocketAddr (struct Bind, bind.rs lines 29-35).
C is the context type-state, B the phantom body type. -/
structure Bind (C : Type) (B : Type) where
  ctx : C
  sensors : Sensors
  executor : Handle
  req_ids : CounterRef

/-- Bind::new (bind.rs lines 98-106): empty context, null sensors, and a
fresh zero-initialized shared request-id counter (Default::default() for
Arc<AtomicUsize> allocates a new cell holding 0). Allocation is modelled
by appending a cell to the store. -/
def Bind.new (B : Type) (executor : Handle) (st : Store) : Bind Unit B × Store :=
  (⟨(), Sensors.null, executor, st.cells.length⟩, ⟨st.cells ++ [0]⟩)

/-- Bind::with_sensors (bind.rs lines 108-113). -/
def Bind.with_sensors {B : Type} (b : Bind Unit B) (sensors : Sensors) :
    Bind Unit B :=
  ⟨b.ctx, sensors, b.executor, b.req_ids⟩

/-- Bind::with_ctx (bind.rs lines 115-123). -/
def Bind.with_ctx {B C : Type} (b : Bind Unit B) (ctx : C) : Bind C B :=
  ⟨ctx, b.sensors, b.executor, b.req_ids⟩

/-- The Clone impl for Bind (bind.rs lines 126-136): each field is cloned
with its own clone operation; the shared handles (sensors, executor,
Arc-held counter) clone to the same handle, and the context's clone is the
given cloneC. -/
def Bind.clone {C B : Type} (cloneC : C → C) (b : Bind C B) : Bind C B :=
  ⟨cloneC b.ctx, Sensors.clone b.sensors, Handle.clone b.executor,
    Arc.clone b.req_ids⟩

/-- A network address (std::net::SocketAddr). -/
structure SocketAddr where
  ip : Nat
  port : Nat
deriving DecidableEq

/-- conduit_proxy_controller_grpc::common::Protocol (external). -/
inductive GrpcProtocol where
  | http
  | tcp
deriving DecidableEq

/-- ctx::transport::Client::new (external): the per-connection client
context recording the owning proxy context, the target address, and the
protocol label, used for telemetry labeling. -/
structure ClientCtx where
  proxy : ArcProxy
  addr : SocketAddr
  protocol : GrpcProtocol
deriving DecidableEq

/-- ctx::transport::Client::new recorded symbolically. -/
def ClientCtx.new (proxy : ArcProxy) (addr : SocketAddr)
    (protocol : GrpcProtocol) : ClientCtx :=
  ⟨proxy, addr, protocol⟩

/-- transport::Connect::new(addr, executor) (external): maps the socket
address to a connection using the reactor handle. -/
structure Connect where
  addr : SocketAddr
  executor : Handle
deriving DecidableEq

/-- transport::Connect::new recorded symbolically. -/
def Connect.new (addr : SocketAddr) (executor : Handle) : Connect :=
  ⟨addr, executor⟩

/-- sensor::Connect (external): the transport connector wrapped with the
connection-level telemetry layer against a client context. -/
structure SensorConnect where
  inner : Connect
  ctx : ClientCtx
  sensors : Sensors
deriving DecidableEq

/-- Sensors::connect recorded symbolically. -/
def Sensors.connect (s : Sensors) (inner : Connect) (ctx : ClientCtx) :
    SensorConnect :=
  ⟨inner, ctx, s⟩

/-- transparency::Client (external): the HTTP client bound to the chosen
protocol over the instrumented connect factory, driven by the executor. -/
structure TransparencyClient where
  protocol : Protocol
  connect : SensorConnect
  executor : Handle
deriving DecidableEq

/-- transparency::Client::new recorded symbolically. -/
def TransparencyClient.new (protocol : Protocol) (connect : SensorConnect)
    (executor : Handle) : TransparencyClient :=
  ⟨protocol, connect, executor⟩

/-- sensor::NewHttp (the NewHttp alias, bind.rs line 62, external): the
HTTP client wrapped with the HTTP-level telemetry layer, holding the
shared request-id counter reference. -/
structure NewHttp where
  req_ids : CounterRef
  client : TransparencyClient
  ctx : ClientCtx
  sensors : Sensors
deriving DecidableEq

/-- Sensors::http recorded symbolically. -/
def Sensors.http (s : Sensors) (req_ids : CounterRef)
    (client : TransparencyClient) (ctx : ClientCtx) : NewHttp :=
  ⟨req_ids, client, ctx, s⟩

/-- tower_reconnect::Reconnect (external): the auto-reconnect decorator,
the Service alias of bind.rs line 60. -/
structure Reconnect where
  inner : NewHttp
deriving DecidableEq

/-- Reconnect::new recorded symbolically. -/
def Reconnect.new (inner : NewHttp) : Reconnect :=
  ⟨inner⟩

/-- Bind::bind_service (bind.rs lines 163-189): build the per-connection
client context, wrap the transport connector with the connection sensor,
build the protocol-bound HTTP client over it, wrap it with the HTTP
sensor holding a clone of the shared request-id counter, and wrap the
whole in the reconnect decorator. -/
def Bind.bind_service {B : Type} (b : Bind ArcProxy B) (addr : SocketAddr)
    (protocol : Protocol) : Reconnect :=
  let client_ctx := ClientCtx.new b.ctx addr GrpcProtocol.http
  let connect := Sensors.connect b.sensors (Connect.new addr b.executor)
    client_ctx
  let client := TransparencyClient.new protocol connect
    (Handle.clone b.executor)
  let proxy := Sensors.http b.sensors (Arc.clone b.req_ids) client client_ctx
  Reconnect.new proxy

/-- Binds a Service from a SocketAddr for a pre-determined protocol
(struct BindProtocol, bind.rs lines 38-41). -/
structure BindProtocol (C : Type) (B : Type) where
  bind : Bind C B
  protocol : Protocol

/-- Bind::with_protocol (bind.rs lines 195-202). -/
def Bind.with_protocol {C B : Type} (b : Bind C B) (protocol : Protocol) :
    BindProtocol C B :=
  ⟨b, protocol⟩

/-- The associated BindError type of the discovery Bind impl
(bind.rs line 212): the unit marker type (). -/
def BindError : Type := Unit

/-- control::discovery::Bind::bind for BindProtocol (bind.rs lines
214-216): always Ok, forwarding to bind_service with the pinned
protocol. -/
def BindProtocol.bindAddr {B : Type} (bp : BindProtocol ArcProxy B)
    (addr : SocketAddr) : Except BindError Reconnect :=
  Except.ok (Bind.bind_service bp.bind addr bp.protocol)

/-- enum BufferSpawnError (bind.rs lines 71-75). -/
inductive BufferSpawnError where
  | Inbound
  | Outbound
deriving DecidableEq

/-- Error::description for BufferSpawnError (bind.rs lines 85-92). -/
def BufferSpawnError.description : BufferSpawnError → String
  | BufferSpawnError.Inbound => "error spawning inbound buffer task"
  | BufferSpawnError.Outbound => "error spawning outbound buffer task"

/-- fmt::Display for BufferSpawnError (bind.rs lines 77-81): pads the
description; with no width or precision set the formatter writes it
unchanged. -/
def BufferSpawnError.display (e : BufferSpawnError) : String :=
  e.description

/-- Error::cause for BufferSpawnError (bind.rs line 94): always None. -/
def BufferSpawnError.cause (_e : BufferSpawnError) : Option String :=
  none

/-- Modelled from the spec: the HTTP-level telemetry sensor (telemetry::
sensor, outside this module) assigns each request dispatched through a
produced service the next value of the shared counter by atomic
fetch-and-increment; the id assigned is the value read. -/
def nextRequestId (c : Nat) : Nat × Nat :=
  (c, c + 1)

/-- One dispatch through a service holding counter reference r: draw the
next request id from the shared cell. -/
def dispatch (r : CounterRef) (st : Store) : Nat × Store :=
  ((nextRequestId (st.get r)).1, st.set r (nextRequestId (st.get r)).2)

/-- The request ids assigned, in call order, to a sequence of dispatches,
each through the service holding the listed counter reference. -/
def dispatchAll : List CounterRef → Store → List Nat × Store
  | [], st => ([], st)
  | r :: rs, st =>
      ((dispatch r st).1 :: (dispatchAll rs (dispatch r st).2).1,
        (dispatchAll rs (dispatch r st).2).2)

/-- The ids a single shared counter with current value c hands out over n
successive dispatches. -/
def dispatchIds : Nat → Nat → List Nat
  | _, 0 => []
  | c, n + 1 => (nextRequestId c).1 :: dispatchIds (nextRequestId c).2 n

/-! Helper lemmas shared by the claim theorems. -/

theorem Host.eq_noAuthority_left (h : Host) :
    Host.eq Host.noAuthority h = false := by
  cases h <;> rfl

theorem Host.eq_noAuthority_right (h : Host) :
    Host.eq h Host.noAuthority = false := by
  cases h <;> rfl

theorem Protocol.eq_http1_noAuthority_right (p : Protocol) :
    Protocol.eq p (Protocol.http1 Host.noAuthority) = false := by
  cases p with
  | http1 h => simpa [Protocol.eq] using Host.eq_noAuthority_right h
  | http2 => rfl

theorem getElem?_concat_len {α : Type} (l : List α) (a : α) :
    (l ++ [a])[l.length]? = some a := by
  induction l with
  | nil => rfl
  | cons x xs ih => simp [ih]

theorem Store.length_set (st : Store) (r : CounterRef) (v : Nat) :
    (st.set r v).cells.length = st.cells.length := by
  simp [Store.set]

theorem Store.get_set_self (st : Store) (r : CounterRef) (v : Nat)
    (h : r < st.cells.length) : (st.set r v).get r = v := by
  simp [Store.set, Store.get, List.getD,
    List.getElem?_set_eq_of_lt v h]

theorem eq_replicate_of_forall_mem {α : Type} (a : α) :
    ∀ l : List α, (∀ x ∈ l, x = a) → l = List.replicate l.length a
  | [], _ => rfl
  | x :: xs, h => by
      have hx : x = a := h x (List.mem_cons_self x xs)
      have hxs := eq_replicate_of_forall_mem a xs
        (fun y hy => h y (List.mem_cons_of_mem x hy))
      simp [List.replicate_succ, hx, ← hxs]

theorem dispatchIds_le (c n : Nat) : ∀ x ∈ dispatchIds c n, c ≤ x := by
  induction n generalizing c with
  | zero => intro x hx; simp [dispatchIds] at hx
  | succ n ih =>
      intro x hx
      simp only [dispatchIds, nextRequestId, List.mem_cons] at hx
      rcases hx with h | h
      · omega
      · have := ih (c + 1) x h
        omega

theorem dispatchIds_pairwise (c n : Nat) :
    List.Pairwise (fun i j => i < j) (dispatchIds c n) := by
  induction n generalizing c with
  | zero => simp [dispatchIds]
  | succ n ih =>
      simp only [dispatchIds, nextRequestId]
      refine List.pairwise_cons.mpr ⟨fun x hx => ?_, ih (c + 1)⟩
      have := dispatchIds_le (c + 1) n x hx
      omega

theorem dispatchIds_nodup (c n : Nat) : (dispatchIds c n).Nodup :=
  (dispatchIds_pairwise c n).imp (fun h => Nat.ne_of_lt h)

theorem dispatchAll_replicate (r : CounterRef) (n : Nat) (st : Store)
    (h : r < st.cells.length) :
    (dispatchAll (List.replicate n r) st).1 = dispatchIds (st.get r) n := by
  induction n generalizing st with
  | zero => rfl
  | succ n ih =>
      have hlen : r < (st.set r (st.get r + 1)).cells.length := by
        rw [Store.length_set]; exact h
      have hget := Store.get_set_self st r (st.get r + 1) h
      simp only [List.replicate_succ, dispatchAll, dispatch, nextRequestId,
        dispatchIds]
      rw [ih (st.set r (st.get r + 1)) hlen, hget]

/-! The claim theorems. -/

/-- C1: for every pair of Host values, if either is NoAuthority the
overridden equality test returns false — NoAuthority is never equal to any
Host, itself included — and consequently Http1(NoAuthority) compares
unequal to Http1(NoAuthority). -/
theorem host_noAuthority_never_eq (h1 h2 : Host)
    (h : h1 = Host.noAuthority ∨ h2 = Host.noAuthority) :
    Host.eq h1 h2 = false ∧
      Protocol.eq (Protocol.http1 Host.noAuthority)
        (Protocol.http1 Host.noAuthority) = false := by
  refine ⟨?_, rfl⟩
  rcases h with h | h
  · subst h; exact Host.eq_noAuthority_left h2
  · subst h; exact Host.eq_noAuthority_right h1

/-- Witness for C1: NoAuthority compared against itself. -/
theorem host_noAuthority_never_eq_witness :
    Host.eq Host.noAuthority Host.noAuthority = false ∧
      Protocol.eq (Protocol.http1 Host.noAuthority)
        (Protocol.http1 Host.noAuthority) = false :=
  host_noAuthority_never_eq Host.noAuthority Host.noAuthority (Or.inl rfl)

/-- C2: for every request whose wire version is not HTTP/2, classification
returns Http1 keyed by the URI's authority component when present, else by
the Host header value when present, convertible to a string and parseable
as an authority, else by NoAuthority. -/
theorem protocolFrom_http1_key {B : Type} (toStr : HeaderValue → Option String)
    (parseAuthority : String → Option Authority) (req : Request B)
    (hv : req.version ≠ Version.http2) :
    (∀ a, req.uriAuthority = some a →
        protocolFrom toStr parseAuthority req =
          Protocol.http1 (Host.authority a)) ∧
      (∀ a, req.uriAuthority = none →
        hostHeaderAuthority toStr parseAuthority req = some a →
        protocolFrom toStr parseAuthority req =
          Protocol.http1 (Host.authority a)) ∧
      (req.uriAuthority = none →
        hostHeaderAuthority toStr parseAuthority req = none →
        protocolFrom toStr parseAuthority req =
          Protocol.http1 Host.noAuthority) := by
  refine ⟨?_, ?_, ?_⟩
  · intro a ha
    simp [protocolFrom, hv, ha, Option.orElse]
  · intro a ha hh
    simp [protocolFrom, hv, ha, hh, Option.orElse]
  · intro ha hh
    simp [protocolFrom, hv, ha, hh, Option.orElse]

/-- Witness for C2: an HTTP/1.1 request whose URI carries an authority. -/
theorem protocolFrom_http1_key_witness :
    protocolFrom (fun _ => none) (fun _ => none)
        (⟨Version.http11, some ⟨"a.com"⟩, [], ()⟩ : Request Unit) =
      Protocol.http1 (Host.authority ⟨"a.com"⟩) :=
  (protocolFrom_http1_key (fun _ => none) (fun _ => none)
    ⟨Version.http11, some ⟨"a.com"⟩, [], ()⟩ (by decide)).1 ⟨"a.com"⟩ rfl

/-- C3: for every request whose wire version is HTTP/2, classification
returns Http2 regardless of the URI authority and headers; the classifier
is a total function over requests. -/
theorem protocolFrom_http2_key {B : Type} (toStr : HeaderValue → Option String)
    (parseAuthority : String → Option Authority) (req : Request B)
    (hv : req.version = Version.http2) :
    protocolFrom toStr parseAuthority req = Protocol.http2 := by
  simp [protocolFrom, hv]

/-- Witness for C3: an HTTP/2 request carrying both an authority and a
Host header still keys as Http2. -/
theorem protocolFrom_http2_key_witness :
    protocolFrom (fun _ => none) (fun s => some ⟨s⟩)
        (⟨Version.http2, some ⟨"a.com"⟩, [(hostHeaderName, ⟨[97]⟩)], ()⟩ :
          Request Unit) =
      Protocol.http2 :=
  protocolFrom_http2_key (fun _ => none) (fun s => some ⟨s⟩)
    ⟨Version.http2, some ⟨"a.com"⟩, [(hostHeaderName, ⟨[97]⟩)], ()⟩ rfl

/-- C4: the request ids drawn, in call order, by any sequence of
dispatches through services holding the binder's shared counter reference
are pairwise distinct and strictly increasing, and every service produced
by bind_service holds exactly that shared reference. -/
theorem request_ids_unique_increasing {B : Type} (b : Bind ArcProxy B)
    (st : Store) (refs : List CounterRef)
    (hrefs : ∀ r ∈ refs, r = b.req_ids)
    (hvalid : b.req_ids < st.cells.length) :
    List.Pairwise (fun i j => i < j) (dispatchAll refs st).1 ∧
      (dispatchAll refs st).1.Nodup ∧
      ∀ (addr : SocketAddr) (p : Protocol),
        (Bind.bind_service b addr p).inner.req_ids = b.req_ids := by
  have hrepl := eq_replicate_of_forall_mem b.req_ids refs hrefs
  rw [hrepl, dispatchAll_replicate b.req_ids refs.length st hvalid]
  exact ⟨dispatchIds_pairwise _ _, dispatchIds_nodup _ _,
    fun addr p => rfl⟩

/-- Witness for C4: two dispatches through services of a binder holding
reference 0 over a one-cell store. -/
theorem request_ids_unique_increasing_witness :
    List.Pairwise (fun i j => i < j)
        (dispatchAll [0, 0] (⟨[0]⟩ : Store)).1 ∧
      (dispatchAll [0, 0] (⟨[0]⟩ : Store)).1.Nodup ∧
      ∀ (addr : SocketAddr) (p : Protocol),
        (Bind.bind_service (⟨⟨1⟩, Sensors.null, ⟨0⟩, 0⟩ : Bind ArcProxy Unit)
          addr p).inner.req_ids =
          (⟨⟨1⟩, Sensors.null, ⟨0⟩, 0⟩ : Bind ArcProxy Unit).req_ids :=
  request_ids_unique_increasing (⟨⟨1⟩, Sensors.null, ⟨0⟩, 0⟩ : Bind ArcProxy Unit)
    ⟨[0]⟩ [0, 0] (by decide) (by decide)

/-- C5: for every address, the discovery-facing bind of a protocol-scoped
binder returns Ok of exactly bind_service at that address and the pinned
protocol, never the error variant; the BindError type is a trivial marker
with no distinguishable values. -/
theorem bindProtocol_always_ok {B : Type} (bp : BindProtocol ArcProxy B)
    (addr : SocketAddr) :
    bp.bindAddr addr =
        Except.ok (Bind.bind_service bp.bind addr bp.protocol) ∧
      (∀ e : BindError, bp.bindAddr addr ≠ Except.error e) ∧
      (∀ x y : BindError, x = y) := by
  refine ⟨rfl, ?_, fun x y => rfl⟩
  intro e h
  exact Except.noConfusion h

/-- C6: cloning a Binder clones each shared handle to the same handle:
the clone's sensors, executor, request-id counter reference, and (when
the context's own clone is handle-like) context all equal the
original's. -/
theorem bind_clone_shares {C B : Type} (cloneC : C → C) (b : Bind C B)
    (hC : ∀ x, cloneC x = x) :
    (Bind.clone cloneC b).sensors = b.sensors ∧
      (Bind.clone cloneC b).executor = b.executor ∧
      (Bind.clone cloneC b).req_ids = b.req_ids ∧
      (Bind.clone cloneC b).ctx = b.ctx :=
  ⟨rfl, rfl, rfl, hC b.ctx⟩

/-- Witness for C6: cloning a concrete binder over the Arc-held proxy
context. -/
theorem bind_clone_shares_witness :
    (Bind.clone (fun x => x)
          (⟨⟨5⟩, Sensors.null, ⟨3⟩, 4⟩ : Bind ArcProxy Unit)).sensors =
        (⟨⟨5⟩, Sensors.null, ⟨3⟩, 4⟩ : Bind ArcProxy Unit).sensors ∧
      (Bind.clone (fun x => x)
          (⟨⟨5⟩, Sensors.null, ⟨3⟩, 4⟩ : Bind ArcProxy Unit)).executor =
        (⟨⟨5⟩, Sensors.null, ⟨3⟩, 4⟩ : Bind ArcProxy Unit).executor ∧
      (Bind.clone (fun x => x)
          (⟨⟨5⟩, Sensors.null, ⟨3⟩, 4⟩ : Bind ArcProxy Unit)).req_ids =
        (⟨⟨5⟩, Sensors.null, ⟨3⟩, 4⟩ : Bind ArcProxy Unit).req_ids ∧
      (Bind.clone (fun x => x)
          (⟨⟨5⟩, Sensors.null, ⟨3⟩, 4⟩ : Bind ArcProxy Unit)).ctx =
        (⟨⟨5⟩, Sensors.null, ⟨3⟩, 4⟩ : Bind ArcProxy Unit).ctx :=
  bind_clone_shares (fun x => x)
    (⟨⟨5⟩, Sensors.null, ⟨3⟩, 4⟩ : Bind ArcProxy Unit) (fun _ => rfl)

/-- C7: new(executor) yields a Binder with unit context, the null sensor
implementation, the given executor, and a freshly allocated counter cell
holding 0 — its reference lies beyond every previously allocated cell and
the previously allocated cells are untouched. -/
theorem bind_new_spec (B : Type) (e : Handle) (st : Store) :
    (Bind.new B e st).1.ctx = () ∧
      (Bind.new B e st).1.sensors = Sensors.null ∧
      (Bind.new B e st).1.executor = e ∧
      ((Bind.new B e st).2.cells)[(Bind.new B e st).1.req_ids]? = some 0 ∧
      st.cells.length ≤ (Bind.new B e st).1.req_ids ∧
      (Bind.new B e st).2.cells = st.cells ++ [0] :=
  ⟨rfl, rfl, rfl, getElem?_concat_len st.cells 0, Nat.le_refl _, rfl⟩

/-- C8: two Authority hosts are equal under the overridden Host equality
exactly when their parsed authority values are equal; in particular equal
literals compare equal and distinct literals compare unequal. -/
theorem host_authority_eq_iff (a b : Authority) :
    (Host.eq (Host.authority a) (Host.authority b) = true ↔ a = b) ∧
      Host.eq (Host.authority ⟨"a.com"⟩) (Host.authority ⟨"a.com"⟩) = true ∧
      Host.eq (Host.authority ⟨"a.com"⟩) (Host.authority ⟨"b.com"⟩) = false := by
  refine ⟨?_, by decide, by decide⟩
  simp [Host.eq]

/-- C9: BufferSpawnError has exactly the variants Inbound and Outbound;
its description and Display distinguish the session direction, and its
cause is always None. -/
theorem bufferSpawnError_spec :
    BufferSpawnError.description BufferSpawnError.Inbound =
        "error spawning inbound buffer task" ∧
      BufferSpawnError.description BufferSpawnError.Outbound =
        "error spawning outbound buffer task" ∧
      (∀ e : BufferSpawnError, e.display = e.description) ∧
      (∀ e : BufferSpawnError, e.cause = none) ∧
      (∀ e : BufferSpawnError,
        e = BufferSpawnError.Inbound ∨ e = BufferSpawnError.Outbound) := by
  refine ⟨rfl, rfl, fun e => rfl, fun e => rfl, fun e => ?_⟩
  cases e
  · exact Or.inl rfl
  · exact Or.inr rfl

/-- C10: the derived hash data of NoAuthority (and of Http1(NoAuthority))
is equal to itself while the overridden equality on NoAuthority returns
false, breaking the reflexivity contract of Eq; a bucket scan keyed by
Http1(NoAuthority) therefore never matches any entry of any table. -/
theorem noAuthority_hash_collides_never_matches :
    Host.hashFeed Host.noAuthority = Host.hashFeed Host.noAuthority ∧
      Protocol.hashFeed (Protocol.http1 Host.noAuthority) =
        Protocol.hashFeed (Protocol.http1 Host.noAuthority) ∧
      Host.eq Host.noAuthority Host.noAuthority = false ∧
      ∀ (tbl : List (Protocol × Nat)),
        findEntry tbl (Protocol.http1 Host.noAuthority) = none := by
  refine ⟨rfl, rfl, rfl, ?_⟩
  intro tbl
  induction tbl with
  | nil => rfl
  | cons p rest ih =>
      simp [findEntry, Protocol.eq_http1_noAuthority_right, ih]

end Conduit
